import Mathlib

/-!
Formal model of `examples/get_image/main.go` from Otterverse/go-aravis.

The source file contains two versions of the example program; the claims
checked below concern the continuous-acquisition version (an `imageSource`
with a double-buffered `outputBuffer`, a `cameraThread` producer and a
`servePNG` HTTP handler) together with process startup in `main`.

Conventions of the embedding:
* byte payloads are `List Nat`;
* `float64` parameter values (gain, exposure) are rationals: the program only
  compares them for equality (`gain != is.gain`) and passes them through, and
  the embedding mirrors exactly that;
* the aravis stream/buffer bindings are not part of the sources under `src/`;
  their contract (a pop removes one buffer from the stream pool and returns it
  with a status, a push returns it to the pool) is modelled from the spec,
  section 4.1;
* Go's `png.Encoder` writing into a `bytes.Buffer` can fail only at the size
  check performed before anything is written (a `bytes.Buffer` write never
  returns an error), so a failing encode contributes no bytes to `out.back`;
  the embedding models a successful encode as appending an arbitrary payload
  and a failing encode as appending nothing.
-/

set_option linter.unusedVariables false

namespace GetImage

/-- Byte payloads (PNG bytes, raw frame data) as lists of bytes. -/
abbrev Bytes := List Nat

/-! ## Parameter handling in servePNG (lines 245-267) -/

/-- One query parameter as the handler sees it. `FormValue` returns the empty
string when the parameter is absent; a nonempty value is fed to
`strconv.ParseFloat`, which returns the parsed number on success and `0`
together with an error on a syntax error. -/
inductive Param
  | absent
  | value (q : ℚ)
  | malformed
  deriving DecidableEq, Repr

/-- Numeric value the handler actually works with for a parameter: `none` when
the parameter is absent (empty string), otherwise the `ParseFloat` result —
which is `0` for a malformed value, because the handler discards the error
(`gain, _ := strconv.ParseFloat(gainStr, 64)`, line 247 and line 259). -/
def parsedValue : Param → Option ℚ
  | .absent => none
  | .value q => some q
  | .malformed => some 0

/-- Device calls the handler can issue. -/
inductive DevCall
  | setGain (q : ℚ)
  | setExposureTime (q : ℚ)
  deriving DecidableEq, Repr

/-- Parameter-owning part of `imageSource`: the last-applied gain and exposure
(`is.gain`, `is.exposure`). -/
structure ISState where
  gain : ℚ
  exposure : ℚ
  deriving DecidableEq, Repr

/-- Adjustable parameters carried by one request (`gain` and `exposure` query
parameters). -/
structure Request where
  gain : Param
  exposure : Param
  deriving DecidableEq, Repr

/-- Gain branch of servePNG (lines 245-255): if the parameter is present,
parse it (error discarded) and, when the parsed value differs from the
recorded current value, issue `SetGain` and record the new value. -/
def applyGain (s : ISState) (p : Param) : ISState × List DevCall :=
  match parsedValue p with
  | none => (s, [])
  | some g =>
    if g = s.gain then (s, [])
    else ({ s with gain := g }, [.setGain g])

/-- Exposure branch of servePNG (lines 257-267), same shape as the gain
branch with `SetExposureTime`. -/
def applyExposure (s : ISState) (p : Param) : ISState × List DevCall :=
  match parsedValue p with
  | none => (s, [])
  | some x =>
    if x = s.exposure then (s, [])
    else ({ s with exposure := x }, [.setExposureTime x])

/-- Sequential parameter application of servePNG (lines 245-267): gain first,
then exposure, returning the updated state and the device calls in order. -/
def applyParams (s : ISState) (r : Request) : ISState × List DevCall :=
  ((applyExposure (applyGain s r.gain).1 r.exposure).1,
    (applyGain s r.gain).2 ++ (applyExposure (applyGain s r.gain).1 r.exposure).2)

/-- HTTP response of the handler. Go's `ResponseWriter` sends status 200
implicitly on the first `Write`; this servePNG never calls `WriteHeader` or
`http.Error`, and a `Write` of an empty slice succeeds writing zero bytes. -/
structure HttpResponse where
  status : Nat
  body : Bytes
  deriving DecidableEq, Repr

/-- Whole servePNG request body (lines 233-276): apply parameter changes, then
write the published slot `is.out.front` as the response body. `deviceErr`
says whether the `SetGain` / `SetExposureTime` device calls fail; the handler
never binds their results, so nothing downstream can depend on it. -/
def servePNG (s : ISState) (front : Bytes) (r : Request) (deviceErr : Bool) :
    ISState × List DevCall × HttpResponse :=
  ((applyParams s r).1, (applyParams s r).2, ⟨200, front⟩)

/-! ## The acquisition loop in cameraThread (lines 191-230) -/

/-- Buffer status as reported by `GetStatus` after `TimeoutPopBuffer`. -/
inductive BufferStatus
  | success
  | timeout
  | deviceStatusError
  deriving DecidableEq, Repr

/-- Environment of one loop iteration: the status of the popped buffer and
what the encoder does with the frame. A successful encode appends `encoded`
to `out.back`; a failing encode appends nothing (see the header comment on
`png.Encoder` with a `bytes.Buffer` sink). -/
structure IterEnv where
  status : BufferStatus
  encodeOk : Bool
  encoded : Bytes
  deriving DecidableEq, Repr

/-- State of the camera thread as the loop sees it: `streamBufs` is the number
of buffers currently held by the stream/device pool, `back` and `front` the
two slots of `is.out`, and `pops` / `pushes` count the `TimeoutPopBuffer` /
`PushBuffer` calls made so far. -/
structure LoopState where
  streamBufs : Nat
  back : Bytes
  front : Bytes
  pops : Nat
  pushes : Nat
  deriving DecidableEq, Repr

/-- One iteration of the acquisition loop (lines 201-229): pop a buffer; on a
non-Success status push it back and continue; on Success encode into
`out.back`; on encode failure push the buffer back and continue; otherwise
push the buffer back, then under `out.mu` copy `back` into a fresh `front`
and reset `back`. -/
def loopIter (s : LoopState) (e : IterEnv) : LoopState :=
  let p : LoopState := { s with streamBufs := s.streamBufs - 1, pops := s.pops + 1 }
  if e.status ≠ .success then
    { p with streamBufs := p.streamBufs + 1, pushes := p.pushes + 1 }
  else if e.encodeOk = false then
    { p with streamBufs := p.streamBufs + 1, pushes := p.pushes + 1 }
  else
    { p with
      streamBufs := p.streamBufs + 1
      pushes := p.pushes + 1
      front := p.back ++ e.encoded
      back := [] }

/-- Several consecutive loop iterations. -/
def loopRun (s : LoopState) (es : List IterEnv) : LoopState :=
  es.foldl loopIter s

/-- Initial loop state: main builds `imageSource` with the zero-value nil
slice as `out.front` and a fresh empty `out.back` (lines 321-331), and
cameraThread seeds the stream pool with two buffers (lines 172-178). -/
def initLoopState : LoopState :=
  { streamBufs := 2, back := [], front := [], pops := 0, pushes := 2 }

/-! ## The commit at the allocation level (lines 224-228) -/

/-- Allocation-level view of the publish state: `heap` lists every byte slice
allocated by a commit so far, in allocation order; `frontIdx` is the heap
index of the currently published slice (`none` models the initial nil
slice); `backBuf` is the contents of `out.back`. -/
structure PubState where
  heap : List Bytes
  frontIdx : Option Nat
  backBuf : Bytes
  deriving DecidableEq, Repr

/-- Commit of lines 224-228 at the allocation level: `make([]byte, back.Len())`
allocates a fresh slice, `copy` fills it from `back`, `front` is repointed to
the fresh slice, and `back.Reset()` empties the write slot. No existing heap
entry is written. -/
def commit (s : PubState) : PubState :=
  { heap := s.heap ++ [s.backBuf]
    frontIdx := some s.heap.length
    backBuf := [] }

/-- Later activity of the loop at the allocation level: each successful frame
fills `back` with its encoded payload and commits it. -/
def commitMany (s : PubState) (payloads : List Bytes) : PubState :=
  payloads.foldl (fun t b => commit { t with backBuf := b }) s

/-! ## Process startup (main, lines 283-365, and cameraThread startup,
lines 163-178) -/

/-- Facts the environment decides at startup: whether device enumeration
fails, how many devices are found, and whether `CreateStream` or `NewBuffer`
fail inside cameraThread. -/
structure StartEnv where
  enumError : Bool
  numDevices : Nat
  streamError : Bool
  bufferError : Bool
  deriving DecidableEq, Repr

/-- Startup of cameraThread (lines 163-178): stream creation, then buffer
allocation; the first failure makes cameraThread return the error to its
caller. -/
def cameraThreadStart (e : StartEnv) : Except String Unit :=
  if e.streamError then .error "create stream failed"
  else if e.bufferError then .error "new buffer failed"
  else .ok ()

/-- Outcome of process startup: aborted via `logger.Fatal` with a diagnostic,
or serving HTTP with the acquisition loop either alive or already dead. -/
inductive ProcOutcome
  | aborted (msg : String)
  | serving (loopAlive : Bool)
  deriving DecidableEq, Repr

/-- Discriminator: did startup abort the process? -/
def isAborted : ProcOutcome → Bool
  | .aborted _ => true
  | .serving _ => false

/-- Startup behavior of main (lines 283-365): `logger.Fatal` aborts on a
device-enumeration error (line 294) and on zero devices (line 299); otherwise
cameraThread runs in a goroutine whose return value is discarded (line 348)
while the web server serves regardless, so a cameraThread startup failure
leaves the process serving with a dead acquisition loop. -/
def mainOutcome (e : StartEnv) : ProcOutcome :=
  if e.enumError then .aborted "device list error"
  else if e.numDevices = 0 then .aborted "No devices found. Exiting."
  else
    match cameraThreadStart e with
    | .error _ => .serving false
    | .ok _ => .serving true

/-! ## Lock structure of reader and writer (lines 224-228 and 233-276) -/

/-- Atomic actions of the handler and of the commit, with explicit lock and
unlock events on the three mutexes of the program: the global `mu`, the
device-parameter lock `is.mu`, and the publish lock `is.out.mu`. -/
inductive Action
  | lockMu
  | unlockMu
  | lockIsMu
  | unlockIsMu
  | lockOutMu
  | unlockOutMu
  | deviceCall (c : DevCall)
  | logPrint
  | bodyWrite
  | copyFront
  | resetBack
  deriving DecidableEq, Repr

/-- Actions performed while applying one changed parameter (lines 249-253 and
261-265): lock `is.mu`, issue the device call, log, unlock `is.mu`. -/
def callActions : List DevCall → List Action
  | [] => []
  | c :: cs => [.lockIsMu, .deviceCall c, .logPrint, .unlockIsMu] ++ callActions cs

/-- Trace of one servePNG request (lines 233-276): the global `mu` is taken
for the whole request; each parameter change runs under `is.mu`; then
`is.out.mu` is locked, the response body is written from the published slot
while it is held, and the LIFO defer order releases `is.out.mu` and then
`mu`. -/
def readerTrace (s : ISState) (r : Request) : List Action :=
  [.lockMu] ++ callActions (applyParams s r).2 ++
    [.lockOutMu, .bodyWrite, .unlockOutMu, .unlockMu]

/-- Trace of the writer's commit (lines 224-228). -/
def commitTrace : List Action :=
  [.lockOutMu, .copyFront, .resetBack, .unlockOutMu]

/-- Effect of one action on the held state of `is.out.mu`. -/
def outMuStep (a : Action) (h : Bool) : Bool :=
  match a with
  | .lockOutMu => true
  | .unlockOutMu => false
  | _ => h

/-- Annotation of a trace with whether `is.out.mu` is held while each action
executes, given the held state at entry; the lock action itself counts as
held, the unlock as released. -/
def outMuAnnotate : List Action → Bool → List (Action × Bool)
  | [], _ => []
  | a :: tl, h => (a, outMuStep a h) :: outMuAnnotate tl (outMuStep a h)

/-! ## Helper lemmas about the loop -/

lemma loopRun_cons (s : LoopState) (e : IterEnv) (tl : List IterEnv) :
    loopRun s (e :: tl) = loopRun (loopIter s e) tl := rfl

lemma loopIter_nonsuccess (s : LoopState) (e : IterEnv) (h : e.status ≠ .success) :
    loopIter s e =
      { s with streamBufs := s.streamBufs - 1 + 1, pops := s.pops + 1,
               pushes := s.pushes + 1 } := by
  simp [loopIter, h]

lemma loopIter_encodeFail (s : LoopState) (e : IterEnv)
    (h1 : e.status = .success) (h2 : e.encodeOk = false) :
    loopIter s e =
      { s with streamBufs := s.streamBufs - 1 + 1, pops := s.pops + 1,
               pushes := s.pushes + 1 } := by
  simp [loopIter, h1, h2]

lemma loopIter_success (s : LoopState) (e : IterEnv)
    (h1 : e.status = .success) (h2 : e.encodeOk = true) :
    loopIter s e =
      { streamBufs := s.streamBufs - 1 + 1, back := [], front := s.back ++ e.encoded,
        pops := s.pops + 1, pushes := s.pushes + 1 } := by
  simp [loopIter, h1, h2]

lemma loopRun_front_cases (s : LoopState) (es : List IterEnv) (hb : s.back = []) :
    (loopRun s es).back = [] ∧
      ((loopRun s es).front = s.front ∨
        ∃ e2 ∈ es, e2.status = .success ∧ e2.encodeOk = true ∧
          (loopRun s es).front = e2.encoded) := by
  induction es generalizing s with
  | nil => exact ⟨hb, Or.inl rfl⟩
  | cons e tl ih =>
    rw [loopRun_cons]
    by_cases hs : e.status = .success
    · by_cases hk : e.encodeOk = true
      · have hstep := loopIter_success s e hs hk
        have hb2 : (loopIter s e).back = [] := by rw [hstep]
        have hf2 : (loopIter s e).front = e.encoded := by rw [hstep]; simp [hb]
        obtain ⟨hrb, hrf⟩ := ih (loopIter s e) hb2
        refine ⟨hrb, Or.inr ?_⟩
        rcases hrf with hrf | ⟨e2, hm, hA, hB, hC⟩
        · exact ⟨e, List.mem_cons_self e tl, hs, hk, by rw [hrf, hf2]⟩
        · exact ⟨e2, List.mem_cons_of_mem e hm, hA, hB, hC⟩
      · have hstep := loopIter_encodeFail s e hs (by simpa using hk)
        have hb2 : (loopIter s e).back = [] := by rw [hstep]; simpa using hb
        have hf2 : (loopIter s e).front = s.front := by rw [hstep]
        obtain ⟨hrb, hrf⟩ := ih (loopIter s e) hb2
        refine ⟨hrb, ?_⟩
        rcases hrf with hrf | ⟨e2, hm, hA, hB, hC⟩
        · exact Or.inl (by rw [hrf, hf2])
        · exact Or.inr ⟨e2, List.mem_cons_of_mem e hm, hA, hB, hC⟩
    · have hstep := loopIter_nonsuccess s e hs
      have hb2 : (loopIter s e).back = [] := by rw [hstep]; simpa using hb
      have hf2 : (loopIter s e).front = s.front := by rw [hstep]
      obtain ⟨hrb, hrf⟩ := ih (loopIter s e) hb2
      refine ⟨hrb, ?_⟩
      rcases hrf with hrf | ⟨e2, hm, hA, hB, hC⟩
      · exact Or.inl (by rw [hrf, hf2])
      · exact Or.inr ⟨e2, List.mem_cons_of_mem e hm, hA, hB, hC⟩

/-! ## Claim theorems about the acquisition loop -/

/-- C1: in every iteration of the acquisition loop, for every pop status
(Success, Timeout, DeviceStatusError) and every encode outcome, exactly one
PushBuffer call is made for the one popped buffer, so the stream pool size is
invariant across iterations. -/
theorem recycle_unconditional (s : LoopState) (e : IterEnv) (h : 0 < s.streamBufs) :
    (loopIter s e).pushes = s.pushes + 1 ∧
    (loopIter s e).pops = s.pops + 1 ∧
    (loopIter s e).streamBufs = s.streamBufs := by
  by_cases hs : e.status = .success
  · by_cases hk : e.encodeOk = true
    · rw [loopIter_success s e hs hk]
      exact ⟨rfl, rfl, by simp; omega⟩
    · rw [loopIter_encodeFail s e hs (by simpa using hk)]
      exact ⟨rfl, rfl, by simp; omega⟩
  · rw [loopIter_nonsuccess s e hs]
    exact ⟨rfl, rfl, by simp; omega⟩

/-- Witness for C1 at a concrete state and a timeout iteration. -/
theorem recycle_unconditional_witness :
    (loopIter initLoopState ⟨.timeout, true, []⟩).pushes = initLoopState.pushes + 1 ∧
    (loopIter initLoopState ⟨.timeout, true, []⟩).pops = initLoopState.pops + 1 ∧
    (loopIter initLoopState ⟨.timeout, true, []⟩).streamBufs = initLoopState.streamBufs :=
  recycle_unconditional initLoopState ⟨.timeout, true, []⟩ (by decide)

/-- C6: across any run of consecutive iterations whose pop status is not
Success, the published payload `out.front` is unchanged and every popped
buffer is pushed back, so the pool size is unchanged. -/
theorem nonsuccess_run_preserves_front (s : LoopState) (es : List IterEnv)
    (hbuf : 0 < s.streamBufs) (hall : ∀ e ∈ es, e.status ≠ .success) :
    (loopRun s es).front = s.front ∧
    (loopRun s es).streamBufs = s.streamBufs ∧
    (loopRun s es).pops = s.pops + es.length ∧
    (loopRun s es).pushes = s.pushes + es.length := by
  induction es generalizing s with
  | nil => simp [loopRun]
  | cons e tl ih =>
    have he := hall e (List.mem_cons_self e tl)
    have hstep := loopIter_nonsuccess s e he
    have hsb : (loopIter s e).streamBufs = s.streamBufs := by
      rw [hstep]; simp; omega
    have hfr : (loopIter s e).front = s.front := by rw [hstep]
    have hpo : (loopIter s e).pops = s.pops + 1 := by rw [hstep]
    have hpu : (loopIter s e).pushes = s.pushes + 1 := by rw [hstep]
    have hbuf2 : 0 < (loopIter s e).streamBufs := by rw [hsb]; exact hbuf
    have hall2 : ∀ x ∈ tl, x.status ≠ .success := fun x hx =>
      hall x (List.mem_cons_of_mem e hx)
    obtain ⟨i1, i2, i3, i4⟩ := ih (loopIter s e) hbuf2 hall2
    rw [loopRun_cons]
    refine ⟨by rw [i1, hfr], by rw [i2, hsb], ?_, ?_⟩
    · rw [i3, hpo]; simp [Nat.add_assoc, Nat.add_comm 1]
    · rw [i4, hpu]; simp [Nat.add_assoc, Nat.add_comm 1]

/-- Witness for C6: three consecutive non-Success pops from the initial
state. -/
theorem nonsuccess_run_preserves_front_witness :
    (loopRun initLoopState
        [⟨.timeout, true, []⟩, ⟨.timeout, true, []⟩, ⟨.deviceStatusError, true, []⟩]).front =
      initLoopState.front ∧
    (loopRun initLoopState
        [⟨.timeout, true, []⟩, ⟨.timeout, true, []⟩, ⟨.deviceStatusError, true, []⟩]).streamBufs =
      initLoopState.streamBufs ∧
    (loopRun initLoopState
        [⟨.timeout, true, []⟩, ⟨.timeout, true, []⟩, ⟨.deviceStatusError, true, []⟩]).pops =
      initLoopState.pops + 3 ∧
    (loopRun initLoopState
        [⟨.timeout, true, []⟩, ⟨.timeout, true, []⟩, ⟨.deviceStatusError, true, []⟩]).pushes =
      initLoopState.pushes + 3 :=
  nonsuccess_run_preserves_front initLoopState
    [⟨.timeout, true, []⟩, ⟨.timeout, true, []⟩, ⟨.deviceStatusError, true, []⟩]
    (by decide) (by decide)

/-- C2: when the encode of a successfully popped frame fails, the loop
continues: the buffer is still pushed back, the published payload and the
write slot are unchanged by that iteration, and every payload published by
later iterations is either still the old one or the encoding of some later
successful frame — the failed frame's bytes never appear. -/
theorem encode_failure_nonfatal (s : LoopState) (e : IterEnv) (es : List IterEnv)
    (hbuf : 0 < s.streamBufs) (hb : s.back = [])
    (hs : e.status = .success) (hk : e.encodeOk = false) :
    (loopIter s e).front = s.front ∧
    (loopIter s e).back = s.back ∧
    (loopIter s e).streamBufs = s.streamBufs ∧
    (loopIter s e).pushes = s.pushes + 1 ∧
    ((loopRun (loopIter s e) es).front = s.front ∨
      ∃ e2 ∈ es, e2.status = .success ∧ e2.encodeOk = true ∧
        (loopRun (loopIter s e) es).front = e2.encoded) := by
  have hstep := loopIter_encodeFail s e hs hk
  have hfr : (loopIter s e).front = s.front := by rw [hstep]
  have hba : (loopIter s e).back = s.back := by rw [hstep]
  have hsb : (loopIter s e).streamBufs = s.streamBufs := by rw [hstep]; simp; omega
  have hpu : (loopIter s e).pushes = s.pushes + 1 := by rw [hstep]
  refine ⟨hfr, hba, hsb, hpu, ?_⟩
  obtain ⟨_, hcase⟩ := loopRun_front_cases (loopIter s e) es (by rw [hba]; exact hb)
  rcases hcase with hcase | ⟨e2, hm, hA, hB, hC⟩
  · exact Or.inl (by rw [hcase, hfr])
  · exact Or.inr ⟨e2, hm, hA, hB, hC⟩

/-- Witness for C2: an encode failure on the first frame, followed by one
successful frame. -/
theorem encode_failure_nonfatal_witness :
    (loopIter initLoopState ⟨.success, false, [7]⟩).front = initLoopState.front ∧
    (loopIter initLoopState ⟨.success, false, [7]⟩).back = initLoopState.back ∧
    (loopIter initLoopState ⟨.success, false, [7]⟩).streamBufs = initLoopState.streamBufs ∧
    (loopIter initLoopState ⟨.success, false, [7]⟩).pushes = initLoopState.pushes + 1 ∧
    ((loopRun (loopIter initLoopState ⟨.success, false, [7]⟩) [⟨.success, true, [1, 2]⟩]).front =
        initLoopState.front ∨
      ∃ e2 ∈ [(⟨.success, true, [1, 2]⟩ : IterEnv)], e2.status = .success ∧ e2.encodeOk = true ∧
        (loopRun (loopIter initLoopState ⟨.success, false, [7]⟩)
            [⟨.success, true, [1, 2]⟩]).front = e2.encoded) :=
  encode_failure_nonfatal initLoopState ⟨.success, false, [7]⟩ [⟨.success, true, [1, 2]⟩]
    (by decide) rfl rfl rfl

/-! ## Claim theorems about parameter handling -/

/-- C3 counterexample: with recorded gain 10 and a malformed gain parameter,
the handler is not a no-op — it issues SetGain 0 and records gain 0, because
the ParseFloat error is discarded and its zero result is compared like a
parsed value. -/
theorem malformed_param_cex :
    applyParams ⟨10, 100⟩ ⟨.malformed, .absent⟩ = (⟨0, 100⟩, [.setGain 0]) ∧
    ¬ ((applyParams ⟨10, 100⟩ ⟨.malformed, .absent⟩).2 = [] ∧
       (applyParams ⟨10, 100⟩ ⟨.malformed, .absent⟩).1 = ⟨10, 100⟩) := by
  decide

/-- C3 (amended): a present-but-malformed gain or exposure parameter is
handled exactly like an explicit request for the value 0, not like an absent
parameter — so it issues a Set call and changes the recorded value whenever
the current value is nonzero. -/
theorem malformed_param_as_zero (s : ISState) (r : Request) :
    (r.gain = .malformed → applyParams s r = applyParams s { r with gain := .value 0 }) ∧
    (r.exposure = .malformed →
      applyParams s r = applyParams s { r with exposure := .value 0 }) := by
  rcases r with ⟨g, x⟩
  constructor
  · intro h
    simp only at h
    subst h
    rfl
  · intro h
    simp only at h
    subst h
    rfl

/-- Witness for C3 (amended) at a concrete state and request. -/
theorem malformed_param_as_zero_witness :
    applyParams ⟨10, 100⟩ ⟨.malformed, .absent⟩ =
      applyParams ⟨10, 100⟩ ⟨.value 0, .absent⟩ :=
  (malformed_param_as_zero ⟨10, 100⟩ ⟨.malformed, .absent⟩).1 rfl

/-- C7: parameter application is idempotent with respect to the last-applied
value — a request carrying a gain different from the recorded one issues
exactly one SetGain call and records the value, and a repeat of the same
request issues no further call and leaves the state unchanged; likewise for
exposure. -/
theorem apply_if_changed_idempotent (s : ISState) (g x : ℚ)
    (hg : g ≠ s.gain) (hx : x ≠ s.exposure) :
    (applyParams s ⟨.value g, .absent⟩).2 = [.setGain g] ∧
    (applyParams s ⟨.value g, .absent⟩).1.gain = g ∧
    (applyParams (applyParams s ⟨.value g, .absent⟩).1 ⟨.value g, .absent⟩).2 = [] ∧
    (applyParams (applyParams s ⟨.value g, .absent⟩).1 ⟨.value g, .absent⟩).1 =
      (applyParams s ⟨.value g, .absent⟩).1 ∧
    (applyParams s ⟨.absent, .value x⟩).2 = [.setExposureTime x] ∧
    (applyParams (applyParams s ⟨.absent, .value x⟩).1 ⟨.absent, .value x⟩).2 = [] := by
  simp [applyParams, applyGain, applyExposure, parsedValue, hg, hx]

/-- Witness for C7: gain 20 requested while the recorded gain is 16. -/
theorem apply_if_changed_idempotent_witness :
    (applyParams ⟨16, 100⟩ ⟨.value 20, .absent⟩).2 = [.setGain 20] ∧
    (applyParams (applyParams ⟨16, 100⟩ ⟨.value 20, .absent⟩).1 ⟨.value 20, .absent⟩).2 = [] := by
  have h := apply_if_changed_idempotent ⟨16, 100⟩ 20 200 (by norm_num) (by norm_num)
  exact ⟨h.1, h.2.2.1⟩

/-! ## Claim theorems about the request handler and startup -/

/-- C8: a request served before the acquisition loop has published anything
reads the zero-value front slot: the response is status 200 with an empty
body, not an error. -/
theorem first_read_before_commit (s : ISState) (r : Request) (derr : Bool) :
    initLoopState.front = [] ∧
    (servePNG s initLoopState.front r derr).2.2.body = [] ∧
    (servePNG s initLoopState.front r derr).2.2.status = 200 :=
  ⟨rfl, rfl, rfl⟩

/-- C9 counterexample: a request whose SetGain device call fails still gets
status 200 — the handler discards the device call results and never produces
a 5xx. -/
theorem device_error_no_5xx_cex :
    (servePNG ⟨10, 100⟩ [3] ⟨.value 20, .absent⟩ true).2.2.status = 200 ∧
    ¬ 500 ≤ (servePNG ⟨10, 100⟩ [3] ⟨.value 20, .absent⟩ true).2.2.status := by
  exact ⟨rfl, by intro h; simp [servePNG] at h⟩

/-- C9 (amended): the continuous-acquisition handler never surfaces an error
as a 5xx — device-access failures during parameter application are discarded
and encoding happens only in the acquisition loop, so every response is
status 200 carrying the currently published payload. -/
theorem response_always_200 (s : ISState) (front : Bytes) (r : Request) (derr : Bool) :
    (servePNG s front r derr).2.2 = ⟨200, front⟩ ∧
    (servePNG s front r derr).2.2.status < 500 :=
  ⟨rfl, by show (200 : Nat) < 500; omega⟩

/-- C5 counterexample: with one device found and a CreateStream failure, the
process is not aborted — it keeps serving with a dead acquisition loop,
unlike the no-devices case. -/
theorem stream_failure_not_fatal_cex :
    isAborted (mainOutcome ⟨false, 1, true, false⟩) = false ∧
    mainOutcome ⟨false, 1, true, false⟩ = .serving false := by
  decide

/-- C5 (amended): a device-enumeration error and the no-devices case abort
the process with a diagnostic, but a CreateStream or NewBuffer failure does
not: cameraThread returns the error, the goroutine discards it, and the
process keeps serving with no acquisition loop. -/
theorem startup_failure_outcomes (e : StartEnv) :
    (e.enumError = true → isAborted (mainOutcome e) = true) ∧
    (e.enumError = false → e.numDevices = 0 → isAborted (mainOutcome e) = true) ∧
    (e.enumError = false → 0 < e.numDevices →
      (e.streamError = true ∨ e.bufferError = true) →
      mainOutcome e = .serving false) := by
  rcases e with ⟨en, n, st, bu⟩
  refine ⟨?_, ?_, ?_⟩
  · intro h
    simp only at h
    subst h
    simp [mainOutcome, isAborted]
  · intro h1 h2
    simp only at h1 h2
    subst h1; subst h2
    simp [mainOutcome, isAborted]
  · intro h1 h2 h3
    simp only at h1 h2 h3
    subst h1
    have hn : ¬ n = 0 := by omega
    rcases h3 with h3 | h3
    · subst h3
      cases bu <;> simp [mainOutcome, cameraThreadStart, hn]
    · subst h3
      cases st <;> simp [mainOutcome, cameraThreadStart, hn]

/-- Witness for C5 (amended) at the three startup-failure classes. -/
theorem startup_failure_outcomes_witness :
    isAborted (mainOutcome ⟨true, 1, false, false⟩) = true ∧
    isAborted (mainOutcome ⟨false, 0, false, false⟩) = true ∧
    mainOutcome ⟨false, 1, true, false⟩ = .serving false :=
  ⟨(startup_failure_outcomes ⟨true, 1, false, false⟩).1 rfl,
   (startup_failure_outcomes ⟨false, 0, false, false⟩).2.1 rfl rfl,
   (startup_failure_outcomes ⟨false, 1, true, false⟩).2.2 rfl (by decide) (Or.inl rfl)⟩

/-! ## Claim theorems about the commit at the allocation level -/

lemma commitMany_take (s : PubState) (bs : List Bytes) :
    (commitMany s bs).heap.take s.heap.length = s.heap := by
  induction bs generalizing s with
  | nil => simp [commitMany]
  | cons b tl ih =>
    have hstep : commitMany s (b :: tl) = commitMany (commit { s with backBuf := b }) tl := rfl
    have h1 := ih (commit { s with backBuf := b })
    have hlen : (commit { s with backBuf := b }).heap.length = s.heap.length + 1 := by
      simp [commit]
    have hheap : (commit { s with backBuf := b }).heap = s.heap ++ [b] := by
      simp [commit]
    rw [hlen, hheap] at h1
    have e1 : ((commitMany (commit { s with backBuf := b }) tl).heap.take
        (s.heap.length + 1)).take s.heap.length =
        (commitMany (commit { s with backBuf := b }) tl).heap.take s.heap.length := by
      rw [List.take_take]
      congr 1
      omega
    rw [hstep, ← e1, h1]
    exact List.take_left s.heap [b]

/-- C10: every commit repoints the published slot at a freshly allocated
slice whose contents are the write buffer's bytes, and resets the write
buffer; no commit ever writes to an existing allocation, so the contents of
every previously published slice survive any number of later commits
byte-for-byte. -/
theorem publish_fresh_and_stable (s : PubState) (bs : List Bytes) :
    (commit s).frontIdx = some s.heap.length ∧
    (commit s).heap.getLast? = some s.backBuf ∧
    (commit s).backBuf = [] ∧
    (commit s).heap.take s.heap.length = s.heap ∧
    (commitMany (commit s) bs).heap.take (s.heap.length + 1) = s.heap ++ [s.backBuf] := by
  refine ⟨rfl, ?_, rfl, ?_, ?_⟩
  · simp [commit]
  · exact List.take_left s.heap [s.backBuf]
  · have h := commitMany_take (commit s) bs
    have hlen : (commit s).heap.length = s.heap.length + 1 := by simp [commit]
    rw [hlen] at h
    rw [h]
    simp [commit]

/-! ## Claim theorems about the lock structure -/

lemma outMuAnnotate_callActions (cs : List DevCall) (rest : List Action) (h : Bool) :
    outMuAnnotate (callActions cs ++ rest) h =
      (callActions cs).map (fun a => (a, h)) ++ outMuAnnotate rest h := by
  induction cs with
  | nil => rfl
  | cons c tl ih => simp [callActions, outMuAnnotate, outMuStep, ih]

lemma bodyWrite_not_mem_callActions (cs : List DevCall) :
    Action.bodyWrite ∉ callActions cs := by
  induction cs with
  | nil => simp [callActions]
  | cons c tl ih => simp [callActions, ih]

/-- C4 counterexample: at a concrete state and a parameterless request, the
reader executes the HTTP response body write while holding the publish lock
`is.out.mu` — the lock is not released after a snapshot copy. -/
theorem reader_lock_span_cex :
    (Action.bodyWrite, true) ∈
      outMuAnnotate (readerTrace ⟨10, 100⟩ ⟨.absent, .absent⟩) false := by
  decide

/-- C4 (amended): in every request, the response body write from the
published slot is executed with the publish lock `is.out.mu` held (and never
without it), and the writer's commit copies under the same lock — so commit
and response writes are serialized by `is.out.mu`, and a slow reader mid-write
delays the writer's commit. -/
theorem reader_write_under_out_mu (s : ISState) (r : Request) :
    (Action.bodyWrite, true) ∈ outMuAnnotate (readerTrace s r) false ∧
    (Action.bodyWrite, false) ∉ outMuAnnotate (readerTrace s r) false ∧
    (Action.copyFront, true) ∈ outMuAnnotate commitTrace false := by
  have hexp : outMuAnnotate (readerTrace s r) false =
      (Action.lockMu, false) ::
        ((callActions (applyParams s r).2).map (fun a => (a, false)) ++
          [(Action.lockOutMu, true), (Action.bodyWrite, true),
           (Action.unlockOutMu, false), (Action.unlockMu, false)]) := by
    simp only [readerTrace, List.cons_append, List.nil_append]
    simp [outMuAnnotate, outMuStep, outMuAnnotate_callActions]
  refine ⟨?_, ?_, ?_⟩
  · rw [hexp]
    simp
  · rw [hexp]
    intro hmem
    simp only [List.mem_cons, List.mem_append, List.mem_map] at hmem
    rcases hmem with h | ⟨a, ha, hEq⟩ | h
    · simp at h
    · have ha2 : a = Action.bodyWrite := by
        have := congrArg Prod.fst hEq
        simpa using this
      subst ha2
      exact bodyWrite_not_mem_callActions _ ha
    · simp at h
  · decide

end GetImage
